import Mathlib

/-!
Shallow embedding of the skincare-routine synthesis and consistency engine:
the AI response parsing pipeline of `Backend/services/geminiService.js`
(`generateSkincareRoutine`) and the catalog/routine reconciliation logic of
the product controller (`autoRegenerateRoutines`, `createProduct`,
`updateProduct`, `deleteProduct`).

Texts are modelled as `List Char`; JSON numbers are modelled as integers
(every number occurring in the verified behaviour is a small integer);
the document store is a pure record of product and routine lists; the
external AI completion is an explicit oracle parameter.
-/

namespace Skinie

/-! ## JS string primitives (on `List Char`) -/

/-- Whitespace recognised by JS `trim` / regex `\s` (ASCII subset). -/
def isWsChar (c : Char) : Bool :=
  c = ' ' || c = '\t' || c = '\n' || c = '\r' || c = '\x0c' || c = '\x0b'

/-- JS `String.prototype.trim`: drop leading then trailing whitespace. -/
def trimList (cs : List Char) : List Char :=
  ((cs.dropWhile isWsChar).reverse.dropWhile isWsChar).reverse

/-- `startsWithList text pre`: `text` begins with the sequence `pre`. -/
def startsWithList : List Char → List Char → Bool
  | _, [] => true
  | [], _ :: _ => false
  | x :: xs, y :: ys => x == y && startsWithList xs ys

/-- Case-insensitive variant (regex `i` flag), comparing lower-cased chars. -/
def startsWithCI : List Char → List Char → Bool
  | _, [] => true
  | [], _ :: _ => false
  | x :: xs, y :: ys => x.toLower == y.toLower && startsWithCI xs ys

/-- JS `String.prototype.includes`: `hasSubstr hay need` holds when `need`
occurs contiguously inside `hay`. -/
def hasSubstr : List Char → List Char → Bool
  | [], need => need.isEmpty
  | a :: t, need => startsWithList (a :: t) need || hasSubstr t need

/-- JS `String.prototype.toLowerCase` (ASCII-relevant part). -/
def lowerList (cs : List Char) : List Char := cs.map Char.toLower

/-! ## JSON values and JS truthiness -/

/-- Parsed JSON values (`JSON.parse` output); numbers as integers. -/
inductive Json where
  | null : Json
  | bool : Bool → Json
  | num : Int → Json
  | str : String → Json
  | arr : List Json → Json
  | obj : List (String × Json) → Json

/-- JS truthiness of a present value. -/
def truthy : Json → Bool
  | .null => false
  | .bool b => b
  | .num n => !(n == 0)
  | .str s => !(s == "")
  | .arr _ => true
  | .obj _ => true

/-- JS truthiness of a possibly-absent value (`undefined` is falsy). -/
def truthyOpt : Option Json → Bool
  | none => false
  | some j => truthy j

/-- Property read `v.k`: a field of an object, `undefined` otherwise. -/
def getField (j : Json) (k : String) : Option Json :=
  match j with
  | .obj fs => fs.lookup k
  | _ => none

/-- Property assignment on an object's field list: overwrite in place if the
key exists, append otherwise (JS object insertion-order semantics). -/
def insertField (fs : List (String × Json)) (k : String) (v : Json) :
    List (String × Json) :=
  match fs with
  | [] => [(k, v)]
  | (k', v') :: t => if k' == k then (k, v) :: t else (k', v') :: insertField t k v

/-- One backfill statement `if (!obj.k) { obj.k = v }`: assign `v` to the
field `k` when the current value is falsy or absent. -/
def fillIfFalsy (fs : List (String × Json)) (k : String) (v : Json) :
    List (String × Json) :=
  if truthyOpt (fs.lookup k) then fs else insertField fs k v

/-! ## A small executable model of `JSON.parse`

Fuel-based recursive-descent parser; enough of the JSON grammar for the
payloads this system exchanges (objects, arrays, strings with simple
escapes, integer numbers, booleans, null). -/

def escChar (e : Char) : Option Char :=
  if e = '"' then some '"'
  else if e = '\\' then some '\\'
  else if e = '/' then some '/'
  else if e = 'n' then some '\n'
  else if e = 't' then some '\t'
  else if e = 'r' then some '\r'
  else none

def parseStrChars : Nat → List Char → Option (List Char × List Char)
  | 0, _ => none
  | _ + 1, [] => none
  | f + 1, c :: rest =>
    if c = '"' then some ([], rest)
    else if c = '\\' then
      match rest with
      | [] => none
      | e :: rest2 =>
        match escChar e with
        | some ec => (parseStrChars f rest2).map (fun p => (ec :: p.1, p.2))
        | none => none
    else (parseStrChars f rest).map (fun p => (c :: p.1, p.2))

def isDigitChar (c : Char) : Bool := c ≥ '0' && c ≤ '9'

def digitsToNat (acc : Nat) : List Char → Nat
  | [] => acc
  | c :: t => digitsToNat (acc * 10 + (c.toNat - '0'.toNat)) t

def parseNum (cs : List Char) : Option (Int × List Char) :=
  let (neg, cs') : Bool × List Char :=
    match cs with
    | '-' :: t => (true, t)
    | _ => (false, cs)
  let ds := cs'.takeWhile isDigitChar
  if ds.isEmpty then none
  else
    let n : Int := Int.ofNat (digitsToNat 0 ds)
    some (if neg then -n else n, cs'.dropWhile isDigitChar)

def skipWs (cs : List Char) : List Char := cs.dropWhile isWsChar

mutual

def parseVal : Nat → List Char → Option (Json × List Char)
  | 0, _ => none
  | f + 1, cs =>
    match skipWs cs with
    | [] => none
    | '{' :: rest =>
      (match skipWs rest with
       | '}' :: rest2 => some (.obj [], rest2)
       | _ => (parseFields f (skipWs rest) []).map (fun p => (.obj p.1, p.2)))
    | '[' :: rest =>
      (match skipWs rest with
       | ']' :: rest2 => some (.arr [], rest2)
       | _ => (parseElems f (skipWs rest)).map (fun p => (.arr p.1, p.2)))
    | '"' :: rest =>
      (parseStrChars (rest.length + 1) rest).map
        (fun p => (.str (String.mk p.1), p.2))
    | 't' :: rest =>
      if startsWithList rest ['r', 'u', 'e'] then some (.bool true, rest.drop 3)
      else none
    | 'f' :: rest =>
      if startsWithList rest ['a', 'l', 's', 'e'] then some (.bool false, rest.drop 4)
      else none
    | 'n' :: rest =>
      if startsWithList rest ['u', 'l', 'l'] then some (.null, rest.drop 3)
      else none
    | c :: rest =>
      if c = '-' || isDigitChar c then (parseNum (c :: rest)).map (fun p => (.num p.1, p.2))
      else none

/-- Fields of an object after `{` (first field expected at head). -/
def parseFields (f : Nat) (cs : List Char) (acc : List (String × Json)) :
    Option (List (String × Json) × List Char) :=
  match f with
  | 0 => none
  | f + 1 =>
    match cs with
    | '"' :: rest =>
      match parseStrChars (rest.length + 1) rest with
      | none => none
      | some (key, rest2) =>
        match skipWs rest2 with
        | ':' :: rest3 =>
          (match parseVal f rest3 with
           | none => none
           | some (v, rest4) =>
             let acc' := insertField acc (String.mk key) v
             match skipWs rest4 with
             | ',' :: rest5 => parseFields f (skipWs rest5) acc'
             | '}' :: rest5 => some (acc', rest5)
             | _ => none)
        | _ => none
    | _ => none

/-- Elements of an array after `[` (first element expected at head). -/
def parseElems (f : Nat) (cs : List Char) :
    Option (List Json × List Char) :=
  match f with
  | 0 => none
  | f + 1 =>
    match parseVal f cs with
    | none => none
    | some (v, rest) =>
      match skipWs rest with
      | ',' :: rest2 =>
        (match parseElems f (skipWs rest2) with
         | none => none
         | some (vs, rest3) => some (v :: vs, rest3))
      | ']' :: rest2 => some ([v], rest2)
      | _ => none

end

/-- Model of `JSON.parse`: whole input must be consumed (up to whitespace). -/
def jsonParse (cs : List Char) : Option Json :=
  match parseVal (4 * cs.length + 8) cs with
  | none => none
  | some (v, rest) => if (skipWs rest).isEmpty then some v else none

/-! ## The AI response parsing pipeline (`generateSkincareRoutine`)

Lines 161-207 of `geminiService.js`: trim, strip markdown code fences,
extract the greedy regex match `\{[\s\S]*\}`, heuristically check for
truncation, `JSON.parse`, validate the `steps` field, backfill optional
fields.  All three error kinds are thrown inside one `try` and re-thrown
by the surrounding `catch` as a single "AI generated invalid response
format: ..." error; the model keeps the three kinds distinguishable. -/

/-- The three failure kinds of the parse block. -/
inductive ParseErr where
  | truncated : ParseErr
  | malformedJson : ParseErr
  | badStructure : ParseErr
deriving DecidableEq

/-- `cleanedResponse.replace(/^```json\s*/i, '')` (also used for the plain
` ``` ` fence): if the text starts with the fence (case-insensitively),
remove it and the whitespace that follows. -/
def stripLeadFence (fence : List Char) (cs : List Char) : List Char :=
  if startsWithCI cs fence then (cs.drop fence.length).dropWhile isWsChar else cs

/-- `cleanedResponse.replace(/\s*```$/i, '')`: if the text ends with
` ``` `, remove it together with the directly preceding whitespace run. -/
def stripTrailFence (cs : List Char) : List Char :=
  if startsWithList cs.reverse ['`', '`', '`'] then
    ((cs.reverse.drop 3).dropWhile isWsChar).reverse
  else cs

/-- Lines 163-168: trim and strip the markdown code-fence markers. -/
def cleanResponse (cs : List Char) : List Char :=
  stripTrailFence
    (stripLeadFence ['`', '`', '`']
      (stripLeadFence ['`', '`', '`', 'j', 's', 'o', 'n'] (trimList cs)))

/-- Suffix of the text starting at the first `{`, if any. -/
def fromFirstBrace : List Char → Option (List Char)
  | [] => none
  | c :: cs => if c = '{' then some (c :: cs) else fromFirstBrace cs

/-- Shortest prefix of the text containing every `}` (i.e. the text cut
after its last `}`), if a `}` occurs at all. -/
def takeToLastBrace : List Char → Option (List Char)
  | [] => none
  | c :: cs =>
    match takeToLastBrace cs with
    | some t => some (c :: t)
    | none => if c = '}' then some ['}'] else none

/-- The greedy regex match `cleanedResponse.match(/\{[\s\S]*\}/)`: from the
first `{` through the last `}` that follows it. -/
def extractSpan (cs : List Char) : Option (List Char) :=
  (fromFirstBrace cs).bind takeToLastBrace

/-- `jsonString.trim().endsWith('}')` (line 176). -/
def endsWithCloseBrace (cs : List Char) : Bool :=
  (trimList cs).getLast? == some '}'

/-- Lines 192-201: backfill the optional fields the response may omit.
Presence is tested with JS truthiness (`!parsedResponse.field`). -/
def backfillFields (fs : List (String × Json)) : List (String × Json) :=
  fillIfFalsy
    (fillIfFalsy (fillIfFalsy fs "compatibilityWarnings" (.arr []))
      "estimatedDuration" (.num 19))
    "tips" (.arr [])

/-- Lines 170-185: extract the greedy brace span; if one is found, apply
the truncation heuristic and decode it, otherwise decode the whole cleaned
text. -/
def decodeResponse (cleaned : List Char) : Except ParseErr Json :=
  match extractSpan cleaned with
  | some span =>
    if endsWithCloseBrace span then
      match jsonParse span with
      | some v => .ok v
      | none => .error .malformedJson
    else .error .truncated
  | none =>
    match jsonParse cleaned with
    | some v => .ok v
    | none => .error .malformedJson

/-- Lines 187-201: require a `steps` array, then backfill the optional
fields.  A decoded value whose `steps` read is a truthy array is
necessarily an object, so the backfill operates on its field list. -/
def validateSteps (v : Json) : Except ParseErr Json :=
  match v, getField v "steps" with
  | .obj fs, some (.arr _) => .ok (.obj (backfillFields fs))
  | _, _ => .error .badStructure

/-- The parse block of `generateSkincareRoutine` (lines 161-207). -/
def parseAIResponse (raw : List Char) : Except ParseErr Json :=
  match decodeResponse (cleanResponse raw) with
  | .error e => .error e
  | .ok v => validateSteps v

/-! ## Domain model: products, routines, the document store -/

/-- A catalog product (the fields the verified logic reads). -/
structure Product where
  id : Nat
  user : Nat
  name : String
  brand : String
  ptype : String
  usage : String
  isActive : Bool
deriving DecidableEq

/-- morning / night. -/
inductive RoutineType where
  | morning : RoutineType
  | night : RoutineType
deriving DecidableEq

/-- `type.charAt(0).toUpperCase() + type.slice(1)`. -/
def RoutineType.title : RoutineType → String
  | .morning => "Morning"
  | .night => "Night"

/-- A persisted routine step.  The stored `waitTime` is whatever JSON value
`aiStep.waitTime || 0` produced. -/
structure Step where
  stepNumber : Int
  product : Nat
  instruction : String
  waitTime : Json

/-- A persisted routine. -/
structure Routine where
  id : Nat
  user : Nat
  name : String
  rtype : RoutineType
  steps : List Step
  isAIGenerated : Bool
  compatibilityWarnings : Json

/-- A step of the parsed AI draft, as read by the binding loop
(`aiStep.stepNumber`, `aiStep.productName`, `aiStep.instruction`,
`aiStep.waitTime`; the last may be absent). -/
structure AIStep where
  stepNumber : Int
  productName : String
  instruction : String
  waitTime : Option Json

/-- The draft fields `autoRegenerateRoutines` reads from the parsed
response. -/
structure Draft where
  steps : List AIStep
  compatibilityWarnings : Json

/-- The document store: all products and routines, plus an id supply for
`create`. -/
structure DB where
  products : List Product
  routines : List Routine
  nextId : Nat

/-! ## Product matcher and step binding (`autoRegenerateRoutines`, lines 44-60) -/

/-- The predicate of the `products.find(...)` call (lines 46-50): exact
case-insensitive equality, or the candidate name contained in the suggested
name, or the suggested name contained in the candidate name. -/
def matchPred (sugg : List Char) (p : Product) : Bool :=
  let pn := lowerList p.name.data
  pn == sugg || hasSubstr sugg pn || hasSubstr pn sugg

/-- `products.find(p => ...)`: first candidate satisfying `matchPred`. -/
def matchingProduct (products : List Product) (sugg : String) : Option Product :=
  products.find? (matchPred (lowerList sugg.data))

/-- `aiStep.waitTime || 0`. -/
def jsOrZero : Option Json → Json
  | some j => if truthy j then j else .num 0
  | none => .num 0

/-- One iteration of the binding loop: a bound step if a product matches,
nothing otherwise (the draft step is dropped silently). -/
def bindStep (products : List Product) (s : AIStep) : Option Step :=
  (matchingProduct products s.productName).map fun p =>
    { stepNumber := s.stepNumber
      product := p.id
      instruction := s.instruction
      waitTime := jsOrZero s.waitTime }

/-- The whole binding loop (lines 44-60). -/
def bindSteps (products : List Product) (ss : List AIStep) : List Step :=
  ss.filterMap (bindStep products)

/-! ## Routine synthesis (`autoRegenerateRoutines`, lines 7-96) -/

/-- The user's active products (`Product.find({user, isActive: true})`). -/
def activeProducts (db : DB) (uid : Nat) : List Product :=
  db.products.filter fun p => p.user == uid && p.isActive

/-- `aiRoutineData.compatibilityWarnings || []` (line 77). -/
def cwOrEmpty (j : Json) : Json := if truthy j then j else .arr []

/-- The result value of `autoRegenerateRoutines`.  The JS function returns
`{regenerated:false, reason:'insufficient_products'}`,
`{regenerated:true, count, message}`, or — from the outer catch, which no
modelled operation can reach — `{regenerated:false, error}`. -/
inductive RegenResult where
  | insufficientProducts : RegenResult
  | success : Nat → String → RegenResult
  | failure : String → RegenResult
deriving DecidableEq

/-- Lines 62-81: if any step bound, delete every AI routine of
`(uid, ty)` and create the replacement routine from the bound steps;
otherwise leave the store untouched and report the type as not
regenerated. -/
def replaceRoutine (uid : Nat) (ty : RoutineType) (steps : List Step)
    (cw : Json) (db : DB) : DB × Bool :=
  if steps.isEmpty then (db, false)
  else
    ({ products := db.products
       routines :=
        (db.routines.filter fun r =>
          !(r.user == uid && r.rtype == ty && r.isAIGenerated))
        ++ [{ id := db.nextId
              user := uid
              name := "AI Generated " ++ ty.title ++ " Routine"
              rtype := ty
              steps := steps
              isAIGenerated := true
              compatibilityWarnings := cw }]
       nextId := db.nextId + 1 }, true)

/-- One iteration of the `for (const type of routineTypes)` loop (lines
33-85), for the type `ty`: call the AI (`gen`), bind the draft steps, and
perform the replace.  An AI failure is caught and skipped.  Returns the
new store and whether this type was regenerated. -/
def processType (gen : RoutineType → Except String Draft) (uid : Nat)
    (products : List Product) (ty : RoutineType) (db : DB) : DB × Bool :=
  match gen ty with
  | .error _ => (db, false)
  | .ok draft =>
    replaceRoutine uid ty (bindSteps products draft.steps)
      (cwOrEmpty draft.compatibilityWarnings) db

/-- `autoRegenerateRoutines(userId)`: the whole helper, with the external
`generateSkincareRoutine` call abstracted as the oracle `gen`.  The third
component records which routine types the AI was invoked for. -/
def autoRegenerateRoutines (gen : RoutineType → Except String Draft)
    (uid : Nat) (db : DB) : DB × RegenResult × List RoutineType :=
  let P := activeProducts db uid
  if P.length < 3 then (db, .insufficientProducts, [])
  else
    let m := processType gen uid P .morning db
    let n := processType gen uid P .night m.1
    let c := (if m.2 then 1 else 0) + (if n.2 then 1 else 0)
    (n.1, .success c (toString c ++ " routine(s) regenerated"),
     [.morning, .night])

/-! ## Integrity repair and the product handlers (`deleteProduct`,
`createProduct`, `updateProduct`) -/

/-- `forEach((step, index) => step.stepNumber = index + 1)`, unrolled with
an explicit starting number. -/
def renumberFrom (n : Int) : List Step → List Step
  | [] => []
  | st :: t => { st with stepNumber := n } :: renumberFrom (n + 1) t

/-- Renumber steps to 1..N in place (lines 295-297). -/
def renumber (steps : List Step) : List Step := renumberFrom 1 steps

/-- The body of the repair loop for one affected routine (lines 284-300):
drop the steps referencing the product; delete the routine if none remain,
otherwise renumber and save. -/
def repairRoutine (pid : Nat) (r : Routine) : Option Routine :=
  let steps' := r.steps.filter fun st => !(st.product == pid)
  if steps'.isEmpty then none else some { r with steps := renumber steps' }

/-- The repair pass of `deleteProduct` (lines 277-300): every routine of
the user referencing the product in any step is repaired; other routines
are untouched. -/
def repairRoutines (uid pid : Nat) (rs : List Routine) : List Routine :=
  rs.filterMap fun r =>
    if r.user == uid && r.steps.any (fun st => st.product == pid)
    then repairRoutine pid r
    else some r

/-- Removal of the product record itself
(`Product.findByIdAndDelete`, line 303). -/
def removeProductRec (pid : Nat) (db : DB) : DB :=
  { db with products := db.products.filter fun p => !(p.id == pid) }

/-- The state change of `deleteProduct`'s success path: integrity repair
first, then removal of the product record.  (The background regeneration
dispatched afterwards is modelled separately and is not awaited.) -/
def deleteProductOp (uid pid : Nat) (db : DB) : DB :=
  removeProductRec pid { db with routines := repairRoutines uid pid db.routines }

/-- `deleteProduct` always schedules background regeneration after the
repair and removal (lines 305-312). -/
def deleteProductHandler (uid pid : Nat) (db : DB) : DB × Bool :=
  (deleteProductOp uid pid db, true)

/-- The update request body: which fields the `PUT` carries. -/
structure UpdateBody where
  name : Option String
  ptype : Option String
  usage : Option String
  isActive : Option Bool

/-- `req.body.type || req.body.usage !== undefined || req.body.isActive
!== undefined` (line 227): `type` is tested for truthiness, the other two
for presence. -/
def significantChange (b : UpdateBody) : Bool :=
  (match b.ptype with
   | some s => !(s == "")
   | none => false)
  || !(b.usage == none) || !(b.isActive == none)

/-- `findByIdAndUpdate(id, req.body)`: overwrite the fields the body
carries. -/
def applyBody (b : UpdateBody) (p : Product) : Product :=
  { p with
    name := b.name.getD p.name
    ptype := b.ptype.getD p.ptype
    usage := b.usage.getD p.usage
    isActive := b.isActive.getD p.isActive }

/-- `updateProduct`'s success path: apply the body and report whether
regeneration was scheduled (`significantChange`). -/
def updateProductOp (pid : Nat) (b : UpdateBody) (db : DB) : DB × Bool :=
  ({ db with
     products := db.products.map fun p => if p.id == pid then applyBody b p else p },
   significantChange b)

/-- `createProduct`'s success path: insert the product and schedule
regeneration unconditionally (lines 171-183). -/
def createProductOp (p : Product) (db : DB) : DB × Bool :=
  ({ db with products := db.products ++ [p] }, true)

/-! ## Auxiliary definitions used by the statements -/

/-- Characters a JSON text can begin with. -/
def jsonStartChar (c : Char) : Bool :=
  ['{', '[', '"', '-', 't', 'f', 'n',
   '0', '5', '1', '6', '2', '7', '3', '8', '4', '9'].contains c

/-- Wrapping a text in markdown code fences, as AI responses often are. -/
def fenceWrap (cs : List Char) : List Char :=
  ['`', '`', '`', 'j', 's', 'o', 'n', '\n'] ++ cs ++ ['\n', '`', '`', '`']

/-- `ns` is exactly the sequence `1, 2, ..., ns.length`. -/
def contiguousFrom1 (ns : List Int) : Bool :=
  ns == (List.range ns.length).map (fun i => Int.ofNat i + 1)

/-- Modelled from the spec's matcher contract (§4.3): tiers applied in
priority order across all candidates — first scan for an exact
case-insensitive match, then for a candidate name contained in the
suggested name, then for the suggested name contained in a candidate
name. -/
def matchByTiers (products : List Product) (sugg : String) : Option Product :=
  let sg := lowerList sugg.data
  match products.find? (fun p => lowerList p.name.data == sg) with
  | some p => some p
  | none =>
    match products.find? (fun p => hasSubstr sg (lowerList p.name.data)) with
    | some p => some p
    | none => products.find? (fun p => hasSubstr (lowerList p.name.data) sg)

/-- The disjunction of the three matching tiers for one candidate. -/
def anyTier (sugg : String) (p : Product) : Bool :=
  matchPred (lowerList sugg.data) p

/-- Whether an update actually changed the type, usage or active flag. -/
def changedSignificant (old new : Product) : Bool :=
  !(old.ptype == new.ptype) || !(old.usage == new.usage)
    || !(old.isActive == new.isActive)

/-- The AI-generated routines of one `(user, type)` slot. -/
def aiRoutines (uid : Nat) (ty : RoutineType) (db : DB) : List Routine :=
  db.routines.filter fun r => r.user == uid && r.rtype == ty && r.isAIGenerated

/-! ## List lemmas -/

theorem takeToLastBrace_getLast :
    ∀ (cs t : List Char), takeToLastBrace cs = some t → t.getLast? = some '}' := by
  intro cs
  induction cs with
  | nil => intro t h; simp [takeToLastBrace] at h
  | cons c cs ih =>
    intro t h
    simp only [takeToLastBrace] at h
    cases htl : takeToLastBrace cs with
    | some t' =>
      rw [htl] at h
      cases h
      have h1 := ih t' htl
      have ht' : t' ≠ [] := by
        intro e; rw [e] at h1; simp at h1
      cases t' with
      | nil => exact absurd rfl ht'
      | cons b l => simpa [List.getLast?_cons_cons] using h1
    | none =>
      rw [htl] at h
      by_cases hc : c = '}'
      · simp only [hc, if_pos rfl] at h
        cases h
        rfl
      · simp [hc] at h

theorem getLast?_dropWhile (p : Char → Bool) :
    ∀ (cs : List Char) (c : Char), cs.getLast? = some c → p c = false →
      (cs.dropWhile p).getLast? = some c := by
  intro cs
  induction cs with
  | nil => intro c h _; simp at h
  | cons a t ih =>
    intro c h hc
    cases t with
    | nil =>
      simp only [List.getLast?_singleton, Option.some.injEq] at h
      subst h
      simp [List.dropWhile, hc]
    | cons b l =>
      rw [List.getLast?_cons_cons] at h
      by_cases hpa : p a = true
      · rw [List.dropWhile_cons_of_pos hpa]
        exact ih c h hc
      · rw [List.dropWhile_cons_of_neg (by simpa using hpa)]
        rw [List.getLast?_cons_cons]
        exact h

theorem head?_dropWhile_of_neg (p : Char → Bool) (cs : List Char) (c : Char)
    (h : cs.head? = some c) (hc : p c = false) : cs.dropWhile p = cs := by
  cases cs with
  | nil => simp at h
  | cons a t =>
    simp only [List.head?_cons, Option.some.injEq] at h
    subst h
    exact List.dropWhile_cons_of_neg (by simp [hc])

theorem trimList_getLast (cs : List Char) (c : Char)
    (h : cs.getLast? = some c) (hc : isWsChar c = false) :
    (trimList cs).getLast? = some c := by
  unfold trimList
  have h1 : (cs.dropWhile isWsChar).getLast? = some c :=
    getLast?_dropWhile isWsChar cs c h hc
  have h2 : (cs.dropWhile isWsChar).reverse.head? = some c := by
    rw [List.head?_reverse]; exact h1
  rw [head?_dropWhile_of_neg isWsChar _ c h2 hc]
  rw [List.getLast?_reverse, List.head?_reverse]
  exact h1

/-! ## C1: the truncation guard of the parser -/

theorem extractSpan_endsWith (cs span : List Char)
    (h : extractSpan cs = some span) : endsWithCloseBrace span = true := by
  unfold extractSpan at h
  cases hf : fromFirstBrace cs with
  | none =>
    rw [hf] at h
    exact Option.noConfusion h
  | some rest =>
    rw [hf] at h
    have hlast := takeToLastBrace_getLast rest span h
    unfold endsWithCloseBrace
    rw [trimList_getLast span '}' hlast (by decide)]
    rfl

theorem decodeResponse_ne_truncated (cleaned : List Char) :
    decodeResponse cleaned ≠ .error .truncated := by
  unfold decodeResponse
  split
  next span heq =>
    by_cases hb : endsWithCloseBrace span = true
    · rw [if_pos hb]
      split <;> simp
    · exact absurd (extractSpan_endsWith _ _ heq) hb
  next heq =>
    split <;> simp

theorem validateSteps_ne_truncated (v : Json) :
    validateSteps v ≠ .error .truncated := by
  unfold validateSteps
  split <;> simp

theorem parseAIResponse_ne_truncated (raw : List Char) :
    parseAIResponse raw ≠ .error .truncated := by
  unfold parseAIResponse
  split
  next e heq =>
    intro h
    injection h with h'
    subst h'
    exact decodeResponse_ne_truncated _ heq
  next v _ => exact validateSteps_ne_truncated v

/-- Whether a parse outcome is the truncation failure. -/
def isTruncatedErr : Except ParseErr Json → Bool
  | .error .truncated => true
  | _ => false

/-- C1: the claim is contradicted by the code.  The code's own comment
(line 175, "Check if JSON appears to be truncated") and the spec intend a
`TruncatedResponse` failure whenever the extracted brace span does not end
in `}`; but the extraction regex `\{[\s\S]*\}` can only match a span whose
last character is `}`, so the truncation guard is unreachable: no raw
response whatsoever makes the parser fail with the truncation error, and a
truncated payload such as `{"steps": [` instead falls through to
`JSON.parse` and fails with the malformed-format error. -/
theorem c1_truncation_guard_dead :
    (∀ raw : List Char, isTruncatedErr (parseAIResponse raw) = false)
    ∧ parseAIResponse "\x7b\"steps\": [".data = .error .malformedJson := by
  refine ⟨?_, rfl⟩
  intro raw
  cases h : parseAIResponse raw with
  | ok v => rfl
  | error e =>
    cases e with
    | truncated => exact absurd h (parseAIResponse_ne_truncated raw)
    | malformedJson => rfl
    | badStructure => rfl

/-! ## C6: fewer than 3 active products -/

/-- C6: with fewer than 3 active products, `autoRegenerateRoutines`
returns the `insufficient_products` outcome, leaves the store untouched,
and invokes the AI collaborator for no routine type at all. -/
theorem c6_insufficient_products (gen : RoutineType → Except String Draft)
    (uid : Nat) (db : DB) (h : (activeProducts db uid).length < 3) :
    autoRegenerateRoutines gen uid db = (db, .insufficientProducts, []) := by
  unfold autoRegenerateRoutines
  simp [h]

def c6db : DB :=
  { products := [⟨1, 1, "CeraVe Cleanser", "CeraVe", "cleanser", "daily", true⟩,
                 ⟨2, 1, "Toner", "B", "toner", "daily", true⟩]
    routines := []
    nextId := 10 }

/-- Witness for C6 at a concrete store with exactly 2 active products. -/
theorem c6_insufficient_products_witness :
    (activeProducts c6db 1).length < 3
    ∧ autoRegenerateRoutines (fun _ => .error "unused") 1 c6db
        = (c6db, .insufficientProducts, []) :=
  ⟨by decide, c6_insufficient_products (fun _ => .error "unused") 1 c6db (by decide)⟩

/-! ## C8: when regeneration is scheduled -/

def c8prod : Product :=
  ⟨7, 1, "CeraVe Foaming Cleanser", "CeraVe", "cleanser", "daily", true⟩

def c8body : UpdateBody := ⟨none, none, none, some true⟩

/-- C8 counterexample: an update whose body re-sends `isActive` with its
current value schedules regeneration even though neither the type, the
usage nor the active flag actually changed — the code tests which fields
the request body carries, not whether their values changed, so the "if and
only if ... changed" reading of the claim is false. -/
theorem c8_counterexample :
    (updateProductOp 7 c8body ⟨[c8prod], [], 0⟩).2 = true
    ∧ changedSignificant c8prod (applyBody c8body c8prod) = false := by
  constructor
  · rfl
  · rfl

/-- C8 (amended): after an update, regeneration is scheduled iff the
request body carries a truthy `type`, or carries `usage`, or carries
`isActive` (field presence, not value change); in particular a body
carrying only `name` never schedules it and a body carrying `isActive`
always does; after a create or a delete, regeneration is scheduled
unconditionally. -/
theorem c8_regeneration_trigger :
    (∀ (b : UpdateBody) (pid : Nat) (db : DB),
      (updateProductOp pid b db).2
        = (b.ptype.any (fun s => !(s == "")) || b.usage.isSome || b.isActive.isSome))
    ∧ (∀ (n : String) (pid : Nat) (db : DB),
        (updateProductOp pid ⟨some n, none, none, none⟩ db).2 = false)
    ∧ (∀ (b : UpdateBody) (pid : Nat) (db : DB),
        b.isActive.isSome = true → (updateProductOp pid b db).2 = true)
    ∧ (∀ (p : Product) (db : DB), (createProductOp p db).2 = true)
    ∧ (∀ (uid pid : Nat) (db : DB), (deleteProductHandler uid pid db).2 = true) := by
  refine ⟨?_, ?_, ?_, ?_, ?_⟩
  · intro b pid db
    rcases b with ⟨n, t, u, a⟩
    cases t <;> cases u <;> cases a <;>
      simp [updateProductOp, significantChange, Option.any]
  · intro n pid db
    rfl
  · intro b pid db h
    rcases b with ⟨n, t, u, a⟩
    cases a with
    | none => simp at h
    | some a =>
      cases t <;> cases u <;>
        simp [updateProductOp, significantChange]
  · intro p db
    rfl
  · intro uid pid db
    rfl

/-- Witness for C8 (amended) at a concrete body carrying `isActive`. -/
theorem c8_regeneration_trigger_witness :
    (UpdateBody.mk none none none (some false)).isActive.isSome = true
    ∧ (updateProductOp 7 ⟨none, none, none, some false⟩ ⟨[c8prod], [], 0⟩).2 = true :=
  ⟨by decide,
   c8_regeneration_trigger.2.2.1 ⟨none, none, none, some false⟩ 7 ⟨[c8prod], [], 0⟩
     (by decide)⟩

/-! ## C2: the product matcher -/

theorem find?_first {α : Type} (p : α → Bool) :
    ∀ (l : List α) (a : α), l.find? p = some a →
      ∃ i : Nat, l.get? i = some a ∧ p a = true
        ∧ ∀ j : Nat, j < i → ∀ b, l.get? j = some b → p b = false := by
  intro l
  induction l with
  | nil => intro a h; simp at h
  | cons x t ih =>
    intro a h
    rw [List.find?_cons] at h
    by_cases hx : p x = true
    · rw [hx] at h
      cases h
      exact ⟨0, rfl, hx, fun j hj b => absurd hj (Nat.not_lt_zero j)⟩
    · rw [Bool.eq_false_iff.mpr hx] at h
      obtain ⟨i, h1, h2, h3⟩ := ih a h
      refine ⟨i + 1, h1, h2, ?_⟩
      intro j hj b hb
      cases j with
      | zero =>
        simp only [List.get?_cons_zero, Option.some.injEq] at hb
        subst hb
        exact Bool.eq_false_iff.mpr hx
      | succ j' =>
        exact h3 j' (Nat.lt_of_succ_lt_succ hj) b hb

def c2pA : Product := ⟨1, 1, "Cleanser", "B", "cleanser", "daily", true⟩

def c2pB : Product := ⟨2, 1, "Foaming Cleanser", "B", "cleanser", "daily", true⟩

/-- C2 counterexample: with catalog `["Cleanser", "Foaming Cleanser"]` and
suggested name `"foaming cleanser"`, the second candidate matches tier 1
(case-insensitive exact equality) while the first matches only tier 2
(containment), yet the code selects the first candidate: the single
`find` call tests the disjunction of all three tiers candidate by
candidate, so a higher-priority tier on a later candidate never wins. -/
theorem c2_counterexample :
    matchingProduct [c2pA, c2pB] "foaming cleanser" = some c2pA
    ∧ (lowerList c2pB.name.data == lowerList "foaming cleanser".data) = true
    ∧ (lowerList c2pA.name.data == lowerList "foaming cleanser".data) = false
    ∧ c2pA ≠ c2pB := by
  refine ⟨rfl, rfl, rfl, by decide⟩

def ceravePr : Product :=
  ⟨1, 1, "CeraVe Foaming Cleanser", "CeraVe", "cleanser", "daily", true⟩

def ordinaryPr : Product :=
  ⟨2, 1, "The Ordinary Niacinamide", "The Ordinary", "serum", "daily", true⟩

/-- C2 (amended): the matcher resolves to at most one product, namely the
first candidate in catalog iteration order satisfying any of the three
criteria (exact case-insensitive equality, candidate name contained in the
suggested name, suggested name contained in the candidate name); tier
priority across candidates is not enforced.  If no candidate satisfies any
criterion, no product is resolved.  The spec's two examples behave as
stated. -/
theorem c2_first_match_any_tier :
    (∀ (P : List Product) (name : String) (p : Product),
        matchingProduct P name = some p →
        ∃ i : Nat, P.get? i = some p ∧ anyTier name p = true
          ∧ ∀ j : Nat, j < i → ∀ q, P.get? j = some q → anyTier name q = false)
    ∧ (∀ (P : List Product) (name : String),
        matchingProduct P name = none → ∀ p ∈ P, anyTier name p = false)
    ∧ matchingProduct [ceravePr, ordinaryPr] "foaming cleanser" = some ceravePr
    ∧ matchingProduct [ceravePr, ordinaryPr] "The Ordinary Niacinamide"
        = some ordinaryPr := by
  refine ⟨?_, ?_, rfl, rfl⟩
  · intro P name p h
    exact find?_first (matchPred (lowerList name.data)) P p h
  · intro P name h p hp
    have := List.find?_eq_none.mp h p hp
    exact Bool.eq_false_iff.mpr this

/-- Witness for C2 (amended), applying the characterization at the spec's
first example. -/
theorem c2_first_match_any_tier_witness :
    matchingProduct [ceravePr, ordinaryPr] "foaming cleanser" = some ceravePr
    ∧ ∃ i : Nat, [ceravePr, ordinaryPr].get? i = some ceravePr
        ∧ anyTier "foaming cleanser" ceravePr = true
        ∧ ∀ j : Nat, j < i → ∀ q, [ceravePr, ordinaryPr].get? j = some q →
            anyTier "foaming cleanser" q = false :=
  ⟨rfl, c2_first_match_any_tier.1 [ceravePr, ordinaryPr] "foaming cleanser" ceravePr rfl⟩

/-! ## Field lookup / assignment lemmas -/

theorem lookup_insertField_self :
    ∀ (fs : List (String × Json)) (k : String) (v : Json),
      (insertField fs k v).lookup k = some v := by
  intro fs
  induction fs with
  | nil => intro k v; simp [insertField, List.lookup]
  | cons e t ih =>
    intro k v
    rcases e with ⟨k', v'⟩
    unfold insertField
    by_cases hk : (k' == k) = true
    · rw [if_pos hk]
      simp [List.lookup]
    · rw [if_neg (by simp_all)]
      have hk2 : (k == k') = false := by
        simp only [beq_iff_eq] at hk ⊢
        simp_all
        exact fun e => hk (Eq.symm e)
      simp [List.lookup, hk2, ih]

theorem lookup_insertField_ne :
    ∀ (fs : List (String × Json)) (k k2 : String) (v : Json), k2 ≠ k →
      (insertField fs k v).lookup k2 = fs.lookup k2 := by
  intro fs
  induction fs with
  | nil =>
    intro k k2 v hne
    simp [insertField, List.lookup, beq_eq_false_iff_ne.mpr hne]
  | cons e t ih =>
    intro k k2 v hne
    rcases e with ⟨k', v'⟩
    unfold insertField
    by_cases hk : (k' == k) = true
    · rw [if_pos hk]
      have : k' = k := by simpa using hk
      subst this
      simp [List.lookup, beq_eq_false_iff_ne.mpr hne]
    · rw [if_neg (by simp_all)]
      by_cases hk2 : (k2 == k') = true
      · simp [List.lookup, hk2]
      · simp only [List.lookup, hk2]
        exact ih k k2 v hne

theorem fillIfFalsy_lookup_ne (fs : List (String × Json)) (k k2 : String)
    (v : Json) (h : k2 ≠ k) :
    (fillIfFalsy fs k v).lookup k2 = fs.lookup k2 := by
  unfold fillIfFalsy
  by_cases ht : truthyOpt (fs.lookup k) = true
  · rw [if_pos ht]
  · rw [if_neg ht]
    exact lookup_insertField_ne fs k k2 v h

theorem fillIfFalsy_lookup_falsy (fs : List (String × Json)) (k : String)
    (v : Json) (h : truthyOpt (fs.lookup k) = false) :
    (fillIfFalsy fs k v).lookup k = some v := by
  unfold fillIfFalsy
  rw [if_neg (by rw [h]; exact Bool.false_ne_true)]
  exact lookup_insertField_self fs k v

/-! ## C10: falsiness-based backfill -/

/-- C10: the backfill tests JS falsiness, not absence — a parsed response
carrying `estimatedDuration: 0` has it replaced by 19; and a bound step
whose draft `waitTime` is falsy (absent, `null`, or `0`) is stored with
`waitTime` 0.  The last conjunct exercises the full parser on a concrete
response with an explicit zero duration. -/
theorem c10_falsy_backfill :
    (∀ fs : List (String × Json),
        fs.lookup "estimatedDuration" = some (.num 0) →
        (backfillFields fs).lookup "estimatedDuration" = some (.num 19))
    ∧ (∀ (s : AIStep) (P : List Product) (p : Product),
        matchingProduct P s.productName = some p →
        (s.waitTime = none ∨ s.waitTime = some .null ∨ s.waitTime = some (.num 0)) →
        bindSteps P [s]
          = [{ stepNumber := s.stepNumber, product := p.id,
               instruction := s.instruction, waitTime := .num 0 }])
    ∧ parseAIResponse "\x7b\"steps\": [], \"estimatedDuration\": 0\x7d".data
        = .ok (.obj [("steps", .arr []), ("estimatedDuration", .num 19),
                     ("compatibilityWarnings", .arr []), ("tips", .arr [])]) := by
  refine ⟨?_, ?_, by rfl⟩
  · intro fs h
    unfold backfillFields
    have h1 : (fillIfFalsy fs "compatibilityWarnings" (.arr [])).lookup
        "estimatedDuration" = some (.num 0) := by
      rw [fillIfFalsy_lookup_ne _ _ _ _ (by decide)]
      exact h
    rw [fillIfFalsy_lookup_ne _ _ _ _ (by decide)]
    rw [fillIfFalsy_lookup_falsy _ _ _ (by rw [h1]; rfl)]
  · intro s P p hm hw
    have hb : bindStep P s
        = some { stepNumber := s.stepNumber, product := p.id,
                 instruction := s.instruction, waitTime := .num 0 } := by
      unfold bindStep
      rw [hm]
      rcases hw with h | h | h <;> rw [h] <;> rfl
    unfold bindSteps
    simp [List.filterMap_cons, hb]

def c10step : AIStep := ⟨2, "Cleanser", "wash gently", some (.num 0)⟩

/-! ## Renumbering lemmas -/

theorem renumberFrom_map_stepNumber :
    ∀ (l : List Step) (n : Int),
      (renumberFrom n l).map (·.stepNumber)
        = (List.range l.length).map (fun i => n + Int.ofNat i) := by
  intro l
  induction l with
  | nil => intro n; rfl
  | cons st t ih =>
    intro n
    show n :: (renumberFrom (n + 1) t).map (·.stepNumber) = _
    rw [ih (n + 1), List.length_cons, List.range_succ_eq_map, List.map_cons,
      List.map_map]
    congr 1
    · simp
    · congr 1
      funext i
      show (n + 1) + Int.ofNat i = n + Int.ofNat (Nat.succ i)
      rw [show Int.ofNat (Nat.succ i) = Int.ofNat i + 1 from rfl]
      ring

theorem renumberFrom_map_product :
    ∀ (l : List Step) (n : Int),
      (renumberFrom n l).map (·.product) = l.map (·.product) := by
  intro l
  induction l with
  | nil => intro n; rfl
  | cons st t ih =>
    intro n
    show st.product :: (renumberFrom (n + 1) t).map (·.product) = _
    rw [ih (n + 1)]
    rfl

theorem renumberFrom_map_instruction :
    ∀ (l : List Step) (n : Int),
      (renumberFrom n l).map (·.instruction) = l.map (·.instruction) := by
  intro l
  induction l with
  | nil => intro n; rfl
  | cons st t ih =>
    intro n
    show st.instruction :: (renumberFrom (n + 1) t).map (·.instruction) = _
    rw [ih (n + 1)]
    rfl

theorem renumberFrom_length (l : List Step) (n : Int) :
    (renumberFrom n l).length = l.length := by
  have := congrArg List.length (renumberFrom_map_product l n)
  simpa using this

theorem contiguous_renumber (l : List Step) :
    contiguousFrom1 ((renumber l).map (·.stepNumber)) = true := by
  unfold contiguousFrom1 renumber
  rw [renumberFrom_map_stepNumber]
  have hlen : ((List.range l.length).map (fun i => (1 : Int) + Int.ofNat i)).length
      = l.length := by simp
  rw [hlen, beq_iff_eq]
  congr 1
  funext i
  ring

/-! ## C3: step-number contiguity -/

def c3db : DB :=
  { products := [⟨1, 1, "Cleanser", "B", "cleanser", "daily", true⟩,
                 ⟨2, 1, "Toner", "B", "toner", "daily", true⟩,
                 ⟨3, 1, "Serum", "B", "serum", "daily", true⟩]
    routines := []
    nextId := 100 }

def c3draft : Draft :=
  ⟨[⟨1, "Cleanser", "wash", none⟩, ⟨2, "Mystery Essence XYZ", "apply", none⟩,
    ⟨3, "Toner", "pat", none⟩], .arr []⟩

def c3gen : RoutineType → Except String Draft := fun _ => .ok c3draft

/-- C3 counterexample: synthesis binding copies the AI draft's stepNumber
values verbatim and silently drops unmatched steps; with a 3-step draft
whose middle step matches no product, both persisted routines carry step
numbers `[1, 3]` — not a contiguous 1..N sequence. -/
theorem c3_counterexample :
    ((autoRegenerateRoutines c3gen 1 c3db).1.routines.map
        (fun r => r.steps.map (·.stepNumber))) = [[1, 3], [1, 3]]
    ∧ ((autoRegenerateRoutines c3gen 1 c3db).1.routines.map
        (fun r => contiguousFrom1 (r.steps.map (·.stepNumber)))) = [false, false] :=
  ⟨rfl, rfl⟩

/-- C3 (amended): after the integrity repair in `deleteProduct`, a
surviving repaired routine's stepNumber values always form a contiguous
1..N sequence; the synthesis binding in `autoRegenerateRoutines`, however,
copies the draft's stepNumber values verbatim for exactly those draft
steps that matched a product, so contiguity holds there only when the
draft itself was densely numbered and no step was dropped. -/
theorem c3_amended_contiguity :
    (∀ (pid : Nat) (r r' : Routine), repairRoutine pid r = some r' →
        contiguousFrom1 (r'.steps.map (·.stepNumber)) = true)
    ∧ (∀ (P : List Product) (ss : List AIStep),
        (bindSteps P ss).map (·.stepNumber)
          = (ss.filter fun s => (matchingProduct P s.productName).isSome).map
              (·.stepNumber)) := by
  constructor
  · intro pid r r' h
    unfold repairRoutine at h
    by_cases he : (r.steps.filter fun st => !(st.product == pid)).isEmpty = true
    · rw [if_pos he] at h
      exact Option.noConfusion h
    · rw [if_neg he] at h
      injection h with h'
      subst h'
      exact contiguous_renumber _
  · intro P ss
    induction ss with
    | nil => rfl
    | cons s t ih =>
      cases hm : matchingProduct P s.productName with
      | some p =>
        have hb : bindStep P s
            = some { stepNumber := s.stepNumber, product := p.id,
                     instruction := s.instruction, waitTime := jsOrZero s.waitTime } := by
          unfold bindStep
          rw [hm]
          rfl
        simpa [bindSteps, List.filterMap_cons, hb, List.filter_cons, hm,
          Option.isSome] using ih
      | none =>
        have hb : bindStep P s = none := by
          unfold bindStep
          rw [hm]
          rfl
        simpa [bindSteps, List.filterMap_cons, hb, List.filter_cons, hm,
          Option.isSome] using ih

def c3repairIn : Routine :=
  ⟨50, 1, "Evening Routine", .night,
   [⟨1, 4, "a", .num 0⟩, ⟨2, 5, "b", .num 0⟩, ⟨3, 6, "c", .num 1⟩],
   false, .arr []⟩

def c3repairOut : Routine :=
  ⟨50, 1, "Evening Routine", .night,
   [⟨1, 4, "a", .num 0⟩, ⟨2, 6, "c", .num 1⟩],
   false, .arr []⟩

/-- Witness for C3 (amended): repairing a concrete 3-step routine after
deleting product 5 renumbers the surviving steps to `1, 2`. -/
theorem c3_amended_contiguity_witness :
    repairRoutine 5 c3repairIn = some c3repairOut
    ∧ contiguousFrom1 (c3repairOut.steps.map (·.stepNumber)) = true :=
  ⟨rfl, c3_amended_contiguity.1 5 c3repairIn c3repairOut rfl⟩

/-- Witness for C10 at a concrete draft step with `waitTime: 0` and a
concrete object with `estimatedDuration: 0`. -/
theorem c10_falsy_backfill_witness :
    ([("steps", Json.arr []), ("estimatedDuration", Json.num 0)].lookup
        "estimatedDuration" = some (.num 0))
    ∧ (backfillFields [("steps", Json.arr []), ("estimatedDuration", Json.num 0)]).lookup
        "estimatedDuration" = some (.num 19)
    ∧ bindSteps [c2pA] [c10step]
        = [{ stepNumber := 2, product := 1, instruction := "wash gently",
             waitTime := .num 0 }] :=
  ⟨rfl,
   c10_falsy_backfill.1 [("steps", Json.arr []), ("estimatedDuration", Json.num 0)] rfl,
   c10_falsy_backfill.2.1 c10step [c2pA] c2pA rfl (Or.inr (Or.inr rfl))⟩

/-! ## C4: integrity repair on product deletion -/

/-- Provenance of a routine surviving the repair pass: it stems from a
stored routine with the same id, either untouched (the routine was not an
affected one) or step-filtered and renumbered. -/
theorem mem_repairRoutines (uid pid : Nat) (rs : List Routine) (r' : Routine)
    (h : r' ∈ repairRoutines uid pid rs) :
    ∃ r ∈ rs, r'.id = r.id
      ∧ (((r.user == uid && r.steps.any fun st => st.product == pid) = false
            ∧ r' = r)
         ∨ ((r.user == uid && r.steps.any fun st => st.product == pid) = true
            ∧ (r.steps.filter fun st => !(st.product == pid)) ≠ []
            ∧ r'.steps = renumber (r.steps.filter fun st => !(st.product == pid)))) := by
  unfold repairRoutines at h
  obtain ⟨r, hr, hfr⟩ := List.mem_filterMap.mp h
  by_cases hc : (r.user == uid && r.steps.any fun st => st.product == pid) = true
  · rw [if_pos hc] at hfr
    unfold repairRoutine at hfr
    by_cases he : (r.steps.filter fun st => !(st.product == pid)).isEmpty = true
    · rw [if_pos he] at hfr
      exact Option.noConfusion hfr
    · rw [if_neg he] at hfr
      injection hfr with h'
      refine ⟨r, hr, by rw [← h'], Or.inr ⟨hc, ?_, by rw [← h']⟩⟩
      intro hnil
      exact he (by simp [hnil])
  · rw [if_neg hc] at hfr
    injection hfr with h'
    exact ⟨r, hr, by rw [← h'], Or.inl ⟨Bool.eq_false_iff.mpr hc, h'.symm⟩⟩

def c4routine3 : Routine :=
  ⟨60, 1, "Morning Routine", .morning,
   [⟨1, 4, "cleanse", .num 0⟩, ⟨2, 5, "tone", .num 1⟩, ⟨3, 6, "apply", .num 0⟩],
   true, .arr []⟩

def c4routine1 : Routine :=
  ⟨61, 1, "Night Routine", .night, [⟨1, 5, "tone", .num 0⟩], false, .arr []⟩

def c4other : Routine :=
  ⟨62, 2, "Other User", .morning, [⟨1, 5, "tone", .num 0⟩], false, .arr []⟩

def c4db : DB :=
  { products := [⟨4, 1, "Cleanser", "B", "cleanser", "daily", true⟩,
                 ⟨5, 1, "Toner", "B", "toner", "daily", true⟩,
                 ⟨6, 1, "Serum", "B", "serum", "daily", true⟩]
    routines := [c4routine3, c4routine1, c4other]
    nextId := 200 }

/-- C4: deleting a product repairs the user's routines before the product
record is removed: the store mutation is exactly repair followed by record
removal (so at removal time the routines are already repaired); after the
repair no routine of the user references the product in any step; an
affected routine all of whose steps referenced the product is deleted
entirely; any other affected routine survives with the same id, the
offending steps removed, the remaining steps' products and instructions in
their original relative order, and step numbers renumbered to a dense 1..N
sequence; and the product record itself is gone from the store. -/
theorem c4_delete_repairs_before_removal (db : DB) (uid pid : Nat)
    (hIds : (db.routines.map (·.id)).Nodup) :
    ((deleteProductOp uid pid db).routines = repairRoutines uid pid db.routines
      ∧ (deleteProductOp uid pid db).products
          = db.products.filter fun p => !(p.id == pid))
    ∧ (∀ r' ∈ repairRoutines uid pid db.routines, r'.user = uid →
        ∀ st ∈ r'.steps, st.product ≠ pid)
    ∧ (∀ r ∈ db.routines, r.user = uid → r.steps ≠ [] →
        (∀ st ∈ r.steps, st.product = pid) →
        ∀ r' ∈ repairRoutines uid pid db.routines, r'.id ≠ r.id)
    ∧ (∀ r ∈ db.routines, r.user = uid →
        (∃ st ∈ r.steps, st.product = pid) →
        (r.steps.filter fun st => !(st.product == pid)) ≠ [] →
        ∃ r' ∈ repairRoutines uid pid db.routines, r'.id = r.id
          ∧ r'.steps.map (·.product)
              = (r.steps.filter fun st => !(st.product == pid)).map (·.product)
          ∧ r'.steps.map (·.instruction)
              = (r.steps.filter fun st => !(st.product == pid)).map (·.instruction)
          ∧ contiguousFrom1 (r'.steps.map (·.stepNumber)) = true)
    ∧ pid ∉ (deleteProductOp uid pid db).products.map (·.id) := by
  refine ⟨⟨rfl, rfl⟩, ?_, ?_, ?_, ?_⟩
  · -- no dangling references among the user's routines after repair
    intro r' hmem huser st hst
    obtain ⟨r, hr, _, hbranch⟩ := mem_repairRoutines uid pid db.routines r' hmem
    rcases hbranch with ⟨hcond, hre⟩ | ⟨_, _, hsteps⟩
    · rw [hre] at huser hst
      intro he2
      have hany : (r.steps.any fun st => st.product == pid) = true :=
        List.any_eq_true.mpr ⟨st, hst, by simp [he2]⟩
      have htrue : (r.user == uid && r.steps.any fun st => st.product == pid)
          = true := by
        rw [hany, show (r.user == uid) = true by simp [huser]]
        rfl
      rw [hcond] at htrue
      exact Bool.false_ne_true htrue
    · rw [hsteps] at hst
      have hpm : st.product
          ∈ ((r.steps.filter fun st => !(st.product == pid)).map (·.product)) := by
        rw [← renumberFrom_map_product _ 1]
        exact List.mem_map_of_mem _ hst
      obtain ⟨st0, hst0, hpe⟩ := List.mem_map.mp hpm
      have hkeep := List.of_mem_filter hst0
      intro he2
      rw [← hpe] at he2
      simp [he2] at hkeep
  · -- fully-offending routines are deleted
    intro r hr huser hne hall r' hmem heq
    obtain ⟨r2, hr2, hid2, hbranch⟩ := mem_repairRoutines uid pid db.routines r' hmem
    have hr2r : r2 = r :=
      List.inj_on_of_nodup_map hIds hr2 hr (by rw [← hid2, heq])
    subst hr2r
    have hfilter : (r2.steps.filter fun st => !(st.product == pid)) = [] :=
      List.filter_eq_nil_iff.mpr (fun st hst => by simp [hall st hst])
    rcases hbranch with ⟨hcond, _⟩ | ⟨_, hnn, _⟩
    · rcases List.exists_mem_of_ne_nil _ hne with ⟨st, hst⟩
      have hany : (r2.steps.any fun st => st.product == pid) = true :=
        List.any_eq_true.mpr ⟨st, hst, by simp [hall st hst]⟩
      have htrue : (r2.user == uid && r2.steps.any fun st => st.product == pid)
          = true := by
        rw [hany, show (r2.user == uid) = true by simp [huser]]
        rfl
      rw [hcond] at htrue
      exact Bool.false_ne_true htrue
    · exact hnn hfilter
  · -- surviving affected routines: same id, order preserved, dense 1..N
    intro r hr huser hex hnn
    refine ⟨{ r with steps := renumber (r.steps.filter fun st => !(st.product == pid)) },
      ?_, rfl, ?_, ?_, ?_⟩
    · unfold repairRoutines
      refine List.mem_filterMap.mpr ⟨r, hr, ?_⟩
      have hany : (r.steps.any fun st => st.product == pid) = true := by
        obtain ⟨st, hst, hpe⟩ := hex
        exact List.any_eq_true.mpr ⟨st, hst, by simp [hpe]⟩
      rw [if_pos (by simp [huser, hany])]
      unfold repairRoutine
      rw [if_neg (fun h => hnn (by simpa using h))]
    · exact renumberFrom_map_product _ 1
    · exact renumberFrom_map_instruction _ 1
    · exact contiguous_renumber _
  · -- the product record is removed
    intro h
    obtain ⟨p, hp, hpe⟩ := List.mem_map.mp h
    have := List.of_mem_filter hp
    simp [hpe] at this

/-- Witness for C4 at a concrete store: deleting product 5 owned by user 1
deletes the 1-step routine referencing it, renumbers the 3-step routine to
steps `1, 2`, and leaves the other user's routine alone. -/
theorem c4_delete_repairs_before_removal_witness :
    ((c4db.routines.map (·.id)).Nodup
      ∧ repairRoutines 1 5 c4db.routines
          = [{ c4routine3 with
                steps := [⟨1, 4, "cleanse", .num 0⟩, ⟨2, 6, "apply", .num 0⟩] },
             c4other]
      ∧ (deleteProductOp 1 5 c4db).products.map (·.id) = [4, 6])
    ∧ (∀ r' ∈ repairRoutines 1 5 c4db.routines, r'.user = 1 →
        ∀ st ∈ r'.steps, st.product ≠ 5) :=
  ⟨⟨by decide, rfl, rfl⟩,
   (c4_delete_repairs_before_removal c4db 1 5 (by decide)).2.1⟩

/-! ## Replace-on-write lemmas for the synthesis loop -/

theorem replaceRoutine_products (uid : Nat) (ty : RoutineType)
    (steps : List Step) (cw : Json) (db : DB) :
    (replaceRoutine uid ty steps cw db).1.products = db.products := by
  unfold replaceRoutine
  by_cases h : steps.isEmpty = true
  · rw [if_pos h]
  · rw [if_neg h]

theorem processType_products (gen : RoutineType → Except String Draft)
    (uid : Nat) (P : List Product) (ty : RoutineType) (db : DB) :
    (processType gen uid P ty db).1.products = db.products := by
  unfold processType
  cases gen ty with
  | error e => rfl
  | ok draft => exact replaceRoutine_products uid ty _ _ db

theorem aiRoutines_replace (uid : Nat) (ty : RoutineType) (steps : List Step)
    (cw : Json) (db : DB) (h : steps ≠ []) :
    aiRoutines uid ty (replaceRoutine uid ty steps cw db).1
      = [{ id := db.nextId, user := uid,
           name := "AI Generated " ++ ty.title ++ " Routine", rtype := ty,
           steps := steps, isAIGenerated := true,
           compatibilityWarnings := cw }] := by
  unfold replaceRoutine
  rw [if_neg (fun hh => h (by simpa using hh))]
  unfold aiRoutines
  rw [List.filter_append, List.filter_filter]
  have h1 : (db.routines.filter fun r =>
      ((r.user == uid && r.rtype == ty && r.isAIGenerated)
        && !(r.user == uid && r.rtype == ty && r.isAIGenerated))) = [] :=
    List.filter_eq_nil_iff.mpr (fun r _ => by simp)
  rw [h1]
  simp

theorem aiRoutines_replace_other (uid : Nat) (ty ty' : RoutineType)
    (steps : List Step) (cw : Json) (db : DB) (hne : ty ≠ ty') :
    aiRoutines uid ty (replaceRoutine uid ty' steps cw db).1
      = aiRoutines uid ty db := by
  unfold replaceRoutine
  by_cases h : steps.isEmpty = true
  · rw [if_pos h]
  · rw [if_neg h]
    unfold aiRoutines
    rw [List.filter_append, List.filter_filter]
    have h2 : (List.filter
        (fun (r : Routine) => r.user == uid && r.rtype == ty && r.isAIGenerated)
        [{ id := db.nextId, user := uid,
           name := "AI Generated " ++ ty'.title ++ " Routine", rtype := ty',
           steps := steps, isAIGenerated := true,
           compatibilityWarnings := cw }]) = [] := by
      simp [List.filter_cons, beq_eq_false_iff_ne.mpr (Ne.symm hne)]
    rw [h2, List.append_nil]
    apply List.filter_congr
    intro r _
    by_cases hty : (r.rtype == ty) = true
    · have hty' : (r.rtype == ty') = false := by
        rw [beq_iff_eq] at hty
        rw [beq_eq_false_iff_ne, hty]
        exact hne
      simp [hty, hty']
    · have hty0 : (r.rtype == ty) = false := Bool.eq_false_iff.mpr hty
      simp [hty0]

theorem processType_other (gen : RoutineType → Except String Draft)
    (uid : Nat) (P : List Product) (ty ty' : RoutineType) (db : DB)
    (hne : ty ≠ ty') :
    aiRoutines uid ty (processType gen uid P ty' db).1
      = aiRoutines uid ty db := by
  unfold processType
  cases gen ty' with
  | error e => rfl
  | ok draft => exact aiRoutines_replace_other uid ty ty' _ _ db hne

theorem processType_replace (gen : RoutineType → Except String Draft)
    (uid : Nat) (P : List Product) (ty : RoutineType) (db : DB) (draft : Draft)
    (hgen : gen ty = .ok draft)
    (hbs : bindSteps P draft.steps ≠ []) :
    aiRoutines uid ty (processType gen uid P ty db).1
      = [{ id := db.nextId, user := uid,
           name := "AI Generated " ++ ty.title ++ " Routine", rtype := ty,
           steps := bindSteps P draft.steps, isAIGenerated := true,
           compatibilityWarnings := cwOrEmpty draft.compatibilityWarnings }] := by
  unfold processType
  rw [hgen]
  exact aiRoutines_replace uid ty _ _ db hbs

theorem autoRegen_products (gen : RoutineType → Except String Draft)
    (uid : Nat) (db : DB) :
    (autoRegenerateRoutines gen uid db).1.products = db.products := by
  unfold autoRegenerateRoutines
  by_cases h : (activeProducts db uid).length < 3
  · rw [if_pos h]
  · rw [if_neg h]
    show (processType gen uid _ .night (processType gen uid _ .morning db).1).1.products
      = db.products
    rw [processType_products, processType_products]

theorem aiRoutines_autoRegen (gen : RoutineType → Except String Draft)
    (uid : Nat) (db : DB) (ty : RoutineType) (draft : Draft)
    (hP : ¬ (activeProducts db uid).length < 3)
    (hgen : gen ty = .ok draft)
    (hbs : bindSteps (activeProducts db uid) draft.steps ≠ []) :
    ∃ n : Nat, aiRoutines uid ty (autoRegenerateRoutines gen uid db).1
      = [{ id := n, user := uid,
           name := "AI Generated " ++ ty.title ++ " Routine", rtype := ty,
           steps := bindSteps (activeProducts db uid) draft.steps,
           isAIGenerated := true,
           compatibilityWarnings := cwOrEmpty draft.compatibilityWarnings }] := by
  unfold autoRegenerateRoutines
  rw [if_neg hP]
  cases ty with
  | morning =>
    refine ⟨db.nextId, ?_⟩
    show aiRoutines uid .morning
      (processType gen uid _ .night (processType gen uid _ .morning db).1).1 = _
    rw [processType_other gen uid _ .morning .night _ (by intro h; exact RoutineType.noConfusion h)]
    exact processType_replace gen uid _ .morning db draft hgen hbs
  | night =>
    refine ⟨(processType gen uid (activeProducts db uid) .morning db).1.nextId, ?_⟩
    show aiRoutines uid .night
      (processType gen uid _ .night (processType gen uid _ .morning db).1).1 = _
    exact processType_replace gen uid _ .night _ draft hgen hbs

/-! ## C5: idempotent replace-on-write -/

/-- C5: running the synthesis twice in sequence with the same store and the
same (deterministic) AI oracle persists a routine with the same step list
both times, and after each run exactly one AI-generated routine exists for
the `(user, type)` slot. -/
theorem c5_replace_idempotent
    (gen : RoutineType → Except String Draft) (uid : Nat) (db : DB)
    (ty : RoutineType) (draft : Draft)
    (hP : 3 ≤ (activeProducts db uid).length)
    (hgen : gen ty = .ok draft)
    (hbs : bindSteps (activeProducts db uid) draft.steps ≠ []) :
    ((aiRoutines uid ty (autoRegenerateRoutines gen uid db).1).map (·.steps)
        = [bindSteps (activeProducts db uid) draft.steps])
    ∧ ((aiRoutines uid ty (autoRegenerateRoutines gen uid
          (autoRegenerateRoutines gen uid db).1).1).map (·.steps)
        = [bindSteps (activeProducts db uid) draft.steps])
    ∧ (aiRoutines uid ty (autoRegenerateRoutines gen uid db).1).length = 1
    ∧ (aiRoutines uid ty (autoRegenerateRoutines gen uid
          (autoRegenerateRoutines gen uid db).1).1).length = 1 := by
  have hP' : ¬ (activeProducts db uid).length < 3 := Nat.not_lt.mpr hP
  have hact : activeProducts (autoRegenerateRoutines gen uid db).1 uid
      = activeProducts db uid := by
    unfold activeProducts
    rw [autoRegen_products]
  obtain ⟨n1, h1⟩ := aiRoutines_autoRegen gen uid db ty draft hP' hgen hbs
  obtain ⟨n2, h2⟩ := aiRoutines_autoRegen gen uid (autoRegenerateRoutines gen uid db).1
    ty draft (by rw [hact]; exact hP') hgen (by rw [hact]; exact hbs)
  rw [hact] at h2
  exact ⟨by simp [h1], by simp [h2], by rw [h1]; rfl, by rw [h2]; rfl⟩

def c5db : DB :=
  { products := [⟨1, 1, "Cleanser", "B", "cleanser", "daily", true⟩,
                 ⟨2, 1, "Toner", "B", "toner", "daily", true⟩,
                 ⟨3, 1, "Serum", "B", "serum", "daily", true⟩]
    routines := []
    nextId := 300 }

def c5draft : Draft := ⟨[⟨1, "Cleanser", "wash", some (.num 1)⟩], .arr []⟩

def c5gen : RoutineType → Except String Draft := fun _ => .ok c5draft

theorem c5bind_ne : bindSteps (activeProducts c5db 1) c5draft.steps ≠ [] := by
  rw [show bindSteps (activeProducts c5db 1) c5draft.steps
      = [{ stepNumber := 1, product := 1, instruction := "wash",
           waitTime := Json.num 1 }] from rfl]
  simp

/-- Witness for C5 at a concrete store and deterministic oracle. -/
theorem c5_replace_idempotent_witness :
    (3 ≤ (activeProducts c5db 1).length
      ∧ c5gen .morning = .ok c5draft
      ∧ bindSteps (activeProducts c5db 1) c5draft.steps ≠ [])
    ∧ ((aiRoutines 1 .morning (autoRegenerateRoutines c5gen 1 c5db).1).map (·.steps)
        = [bindSteps (activeProducts c5db 1) c5draft.steps])
    ∧ (aiRoutines 1 .morning (autoRegenerateRoutines c5gen 1
          (autoRegenerateRoutines c5gen 1 c5db).1).1).length = 1 :=
  ⟨⟨by decide, rfl, c5bind_ne⟩,
   (c5_replace_idempotent c5gen 1 c5db .morning c5draft (by decide) rfl c5bind_ne).1,
   (c5_replace_idempotent c5gen 1 c5db .morning c5draft (by decide) rfl c5bind_ne).2.2.2⟩

/-! ## C7: per-type isolation in the batch -/

def c7db : DB :=
  { products := [⟨1, 1, "Cleanser", "B", "cleanser", "daily", true⟩,
                 ⟨2, 1, "Toner", "B", "toner", "daily", true⟩,
                 ⟨3, 1, "Serum", "B", "serum", "daily", true⟩]
    routines := []
    nextId := 400 }

def c7draft : Draft := ⟨[⟨1, "Cleanser", "wash", none⟩], .arr []⟩

def c7gen1 : RoutineType → Except String Draft := fun ty =>
  match ty with
  | .morning => .error "morning AI down"
  | .night => .ok c7draft

def c7gen2 : RoutineType → Except String Draft := fun ty =>
  match ty with
  | .morning => .ok c7draft
  | .night => .error "night AI down"

/-- C7 counterexample: two oracles failing on different types (with
different error messages) produce the very same returned value, so the
returned value carries no per-type outcome — the per-type errors are only
logged, never included in the result, contradicting the claim that each
type's outcome (success count, or per-type error) is reported together in
the returned value. -/
theorem c7_counterexample :
    (autoRegenerateRoutines c7gen1 1 c7db).2.1
        = (autoRegenerateRoutines c7gen2 1 c7db).2.1
    ∧ (autoRegenerateRoutines c7gen1 1 c7db).2.1
        = .success 1 "1 routine(s) regenerated"
    ∧ c7gen1 .morning = .error "morning AI down"
    ∧ c7gen2 .night = .error "night AI down"
    ∧ c7gen1 .night = .ok c7draft
    ∧ c7gen2 .morning = .ok c7draft :=
  ⟨rfl, rfl, rfl, rfl, rfl, rfl⟩

/-- C7 (amended): a failure synthesizing the morning type does not abort
the night type — the store mutation is exactly the night pass applied to
the untouched store — and the outcome is always the returned
success-shaped value carrying only the aggregate count and message, never
a raised/failure value (the per-type error is only logged). -/
theorem c7_per_type_isolation (gen : RoutineType → Except String Draft)
    (uid : Nat) (db : DB) (e : String)
    (hP : 3 ≤ (activeProducts db uid).length)
    (hm : gen .morning = .error e) :
    autoRegenerateRoutines gen uid db
      = ((processType gen uid (activeProducts db uid) .night db).1,
         .success
           (if (processType gen uid (activeProducts db uid) .night db).2
            then 1 else 0)
           (toString
              (if (processType gen uid (activeProducts db uid) .night db).2
               then 1 else 0) ++ " routine(s) regenerated"),
         [.morning, .night]) := by
  have hP' : ¬ (activeProducts db uid).length < 3 := Nat.not_lt.mpr hP
  have hmor : processType gen uid (activeProducts db uid) .morning db
      = (db, false) := by
    unfold processType
    rw [hm]
  unfold autoRegenerateRoutines
  rw [if_neg hP']
  rw [hmor]
  simp

/-- Witness for C7 (amended) at a concrete oracle failing the morning
type while the night type succeeds. -/
theorem c7_per_type_isolation_witness :
    (3 ≤ (activeProducts c7db 1).length ∧ c7gen1 .morning = .error "morning AI down")
    ∧ autoRegenerateRoutines c7gen1 1 c7db
      = ((processType c7gen1 1 (activeProducts c7db 1) .night c7db).1,
         .success
           (if (processType c7gen1 1 (activeProducts c7db 1) .night c7db).2
            then 1 else 0)
           (toString
              (if (processType c7gen1 1 (activeProducts c7db 1) .night c7db).2
               then 1 else 0) ++ " routine(s) regenerated"),
         [.morning, .night]) :=
  ⟨⟨by decide, rfl⟩,
   c7_per_type_isolation c7gen1 1 c7db "morning AI down" (by decide) rfl⟩

/-! ## C9: code fences and optional-field backfill -/

theorem jsonStartChar_facts (c : Char) (h : jsonStartChar c = true) :
    (c.toLower == '`') = false ∧ (c == '`') = false ∧ isWsChar c = false := by
  have hm : c ∈ ['{', '[', '"', '-', 't', 'f', 'n',
      '0', '5', '1', '6', '2', '7', '3', '8', '4', '9'] := by
    rw [← List.elem_iff]
    exact h
  fin_cases hm <;> exact ⟨by decide, by decide, by decide⟩

theorem startsWithCI_append_self :
    ∀ (pre rest : List Char), startsWithCI (pre ++ rest) pre = true := by
  intro pre
  induction pre with
  | nil => intro rest; cases rest <;> rfl
  | cons a t ih =>
    intro rest
    show (a.toLower == a.toLower && startsWithCI (t ++ rest) t) = true
    simp [ih]

theorem startsWithCI_tick_false (c : Char) (t rest : List Char)
    (h : (c.toLower == '`') = false) :
    startsWithCI (c :: t) ('`' :: rest) = false := by
  show (c.toLower == Char.toLower '`' && startsWithCI t rest) = false
  rw [show Char.toLower '`' = '`' from rfl, h]
  rfl

theorem startsWithList_tick_false (c : Char) (t rest : List Char)
    (h : (c == '`') = false) :
    startsWithList (c :: t) ('`' :: rest) = false := by
  show (c == '`' && startsWithList t rest) = false
  rw [h]
  rfl

theorem stripLeadFence_of_not (fence cs : List Char)
    (h : startsWithCI cs fence = false) : stripLeadFence fence cs = cs := by
  unfold stripLeadFence
  rw [if_neg (by rw [h]; exact Bool.false_ne_true)]

theorem stripTrailFence_of_not (cs : List Char)
    (h : startsWithList cs.reverse ['`', '`', '`'] = false) :
    stripTrailFence cs = cs := by
  unfold stripTrailFence
  rw [if_neg (by rw [h]; exact Bool.false_ne_true)]

theorem trimList_eq_self (cs : List Char)
    (hL : cs.dropWhile isWsChar = cs)
    (hR : cs.reverse.dropWhile isWsChar = cs.reverse) : trimList cs = cs := by
  unfold trimList
  rw [hL, hR, List.reverse_reverse]

/-- Cleaning is the identity on a bare JSON-shaped text: it starts with a
JSON start character and ends with a non-whitespace character other than a
backtick. -/
theorem cleanResponse_id (cs : List Char) (hne : cs ≠ [])
    (hstart : jsonStartChar (cs.headD ' ') = true)
    (hlast : (cs.getLastD ' ' == '`') = false)
    (hlastWs : isWsChar (cs.getLastD ' ') = false) :
    cleanResponse cs = cs := by
  rcases cs with _ | ⟨c, t⟩
  · exact absurd rfl hne
  obtain ⟨hcCI, _, hcWs⟩ := jsonStartChar_facts c hstart
  rcases hrev : (c :: t).reverse with _ | ⟨d, u⟩
  · exact absurd (List.reverse_eq_nil_iff.mp hrev) (List.cons_ne_nil c t)
  have hgl : (c :: t).getLast? = some d := by
    rw [← List.head?_reverse, hrev]
    rfl
  have hglD : (c :: t).getLastD ' ' = d := by
    rw [List.getLastD_eq_getLast?, hgl]
    rfl
  rw [hglD] at hlast hlastWs
  have hL : (c :: t).dropWhile isWsChar = c :: t :=
    List.dropWhile_cons_of_neg (by simp [hcWs])
  have hR : (c :: t).reverse.dropWhile isWsChar = (c :: t).reverse := by
    rw [hrev]
    exact List.dropWhile_cons_of_neg (by simp [hlastWs])
  unfold cleanResponse
  rw [trimList_eq_self _ hL hR]
  rw [stripLeadFence_of_not _ _ (startsWithCI_tick_false c t _ hcCI)]
  rw [stripLeadFence_of_not _ _ (startsWithCI_tick_false c t _ hcCI)]
  rw [stripTrailFence_of_not _ (by rw [hrev]; exact startsWithList_tick_false d u _ hlast)]

/-- Cleaning a fence-wrapped JSON-shaped text strips exactly the fences. -/
theorem cleanResponse_fenceWrap (cs : List Char) (hne : cs ≠ [])
    (hstart : jsonStartChar (cs.headD ' ') = true)
    (hlast : (cs.getLastD ' ' == '`') = false)
    (hlastWs : isWsChar (cs.getLastD ' ') = false) :
    cleanResponse (fenceWrap cs) = cs := by
  rcases cs with _ | ⟨c, t⟩
  · exact absurd rfl hne
  obtain ⟨hcCI, _, hcWs⟩ := jsonStartChar_facts c hstart
  rcases hrev : (c :: t).reverse with _ | ⟨d, u⟩
  · exact absurd (List.reverse_eq_nil_iff.mp hrev) (List.cons_ne_nil c t)
  have hgl : (c :: t).getLast? = some d := by
    rw [← List.head?_reverse, hrev]
    rfl
  have hglD : (c :: t).getLastD ' ' = d := by
    rw [List.getLastD_eq_getLast?, hgl]
    rfl
  rw [hglD] at hlast hlastWs
  -- the wrapped text reversed, in cons form
  have hwrev : (fenceWrap (c :: t)).reverse
      = '`' :: '`' :: '`' :: '\n'
          :: ((c :: t).reverse ++ ['\n', 'n', 'o', 's', 'j', '`', '`', '`']) := by
    unfold fenceWrap
    rw [List.reverse_append, List.reverse_append]
    rfl
  -- 1: trimming the wrapped text is the identity
  have htrim : trimList (fenceWrap (c :: t)) = fenceWrap (c :: t) := by
    apply trimList_eq_self
    · exact List.dropWhile_cons_of_neg (by decide)
    · rw [hwrev]
      exact List.dropWhile_cons_of_neg (by decide)
  -- 2: the ```json fence is stripped together with the newline
  have hlead : stripLeadFence ['`', '`', '`', 'j', 's', 'o', 'n']
      (fenceWrap (c :: t)) = (c :: t) ++ ['\n', '`', '`', '`'] := by
    unfold stripLeadFence
    rw [if_pos (by
      have := startsWithCI_append_self ['`', '`', '`', 'j', 's', 'o', 'n']
        ('\n' :: ((c :: t) ++ ['\n', '`', '`', '`']))
      simpa [fenceWrap, List.append_assoc] using this)]
    rw [show List.drop (['`', '`', '`', 'j', 's', 'o', 'n'] : List Char).length
          (fenceWrap (c :: t))
        = '\n' :: ((c :: t) ++ ['\n', '`', '`', '`']) from rfl]
    rw [List.dropWhile_cons_of_pos (by decide)]
    exact List.dropWhile_cons_of_neg (by simp [hcWs])
  -- 3: the bare ``` fence does not match what remains
  have hlead2 : stripLeadFence ['`', '`', '`']
      ((c :: t) ++ ['\n', '`', '`', '`']) = (c :: t) ++ ['\n', '`', '`', '`'] :=
    stripLeadFence_of_not _ _ (startsWithCI_tick_false c _ _ hcCI)
  -- 4: the trailing fence is stripped together with the newline
  have htrail : stripTrailFence ((c :: t) ++ ['\n', '`', '`', '`']) = c :: t := by
    unfold stripTrailFence
    have hrev2 : ((c :: t) ++ ['\n', '`', '`', '`']).reverse
        = '`' :: '`' :: '`' :: '\n' :: (c :: t).reverse := by
      rw [List.reverse_append]
      rfl
    rw [if_pos (by rw [hrev2]; rfl)]
    rw [hrev2]
    rw [show List.drop 3 ('`' :: '`' :: '`' :: '\n' :: (c :: t).reverse)
        = '\n' :: (c :: t).reverse from rfl]
    rw [List.dropWhile_cons_of_pos (by decide)]
    rw [hrev]
    rw [List.dropWhile_cons_of_neg (by simp [hlastWs])]
    rw [← hrev, List.reverse_reverse]
  unfold cleanResponse
  rw [htrim, hlead, hlead2, htrail]

/-- C9: wrapping a JSON-shaped text in markdown code fences does not
change the parser's result — the fences are stripped and the pipeline
continues on the bare text; and the optional fields a decoded response
omits are backfilled: `tips` to the empty list (a draft with `steps` but
no `tips` yields `tips = []`), `compatibilityWarnings` to the empty list,
and `estimatedDuration` to the fixed default 19. -/
theorem c9_fence_strip_and_backfill :
    (∀ cs : List Char, cs ≠ [] →
        jsonStartChar (cs.headD ' ') = true →
        (cs.getLastD ' ' == '`') = false →
        isWsChar (cs.getLastD ' ') = false →
        jsonParse cs ≠ none →
        parseAIResponse (fenceWrap cs) = parseAIResponse cs)
    ∧ (∀ (fs : List (String × Json)) (xs : List Json),
        fs.lookup "steps" = some (.arr xs) →
        (fs.lookup "tips" = none →
          (backfillFields fs).lookup "tips" = some (.arr []))
        ∧ (fs.lookup "compatibilityWarnings" = none →
          (backfillFields fs).lookup "compatibilityWarnings" = some (.arr []))
        ∧ (fs.lookup "estimatedDuration" = none →
          (backfillFields fs).lookup "estimatedDuration" = some (.num 19))) := by
  constructor
  · intro cs hne hstart hlast hlastWs _
    unfold parseAIResponse
    rw [cleanResponse_fenceWrap cs hne hstart hlast hlastWs,
      cleanResponse_id cs hne hstart hlast hlastWs]
  · intro fs xs _
    refine ⟨?_, ?_, ?_⟩
    · intro h
      unfold backfillFields
      rw [fillIfFalsy_lookup_falsy _ _ _ (by
        rw [fillIfFalsy_lookup_ne _ _ _ _ (by decide),
          fillIfFalsy_lookup_ne _ _ _ _ (by decide), h]
        rfl)]
    · intro h
      unfold backfillFields
      rw [fillIfFalsy_lookup_ne _ _ _ _ (by decide),
        fillIfFalsy_lookup_ne _ _ _ _ (by decide)]
      rw [fillIfFalsy_lookup_falsy _ _ _ (by rw [h]; rfl)]
    · intro h
      unfold backfillFields
      rw [fillIfFalsy_lookup_ne _ _ _ _ (by decide)]
      rw [fillIfFalsy_lookup_falsy _ _ _ (by
        rw [fillIfFalsy_lookup_ne _ _ _ _ (by decide), h]
        rfl)]

/-- Witness for C9 at the concrete response `{"steps":[]}`, fenced and
bare. -/
theorem c9_fence_strip_and_backfill_witness :
    ("\x7b\"steps\":[]\x7d".data ≠ []
      ∧ jsonStartChar ("\x7b\"steps\":[]\x7d".data.headD ' ') = true
      ∧ jsonParse "\x7b\"steps\":[]\x7d".data ≠ none)
    ∧ parseAIResponse (fenceWrap "\x7b\"steps\":[]\x7d".data)
        = parseAIResponse "\x7b\"steps\":[]\x7d".data
    ∧ ((backfillFields [("steps", Json.arr [])]).lookup "tips"
        = some (.arr [])) :=
  ⟨⟨by decide, by decide,
    fun h => Option.noConfusion ((show jsonParse "\x7b\"steps\":[]\x7d".data
      = some (Json.obj [("steps", Json.arr [])]) from rfl) ▸ h)⟩,
   c9_fence_strip_and_backfill.1 "\x7b\"steps\":[]\x7d".data (by decide) (by decide)
     (by decide) (by decide)
     (fun h => Option.noConfusion ((show jsonParse "\x7b\"steps\":[]\x7d".data
       = some (Json.obj [("steps", Json.arr [])]) from rfl) ▸ h)),
   (c9_fence_strip_and_backfill.2 [("steps", Json.arr [])] [] rfl).1 rfl⟩

end Skinie
